import Mathlib

/-!
Verification development for the EasyR1 actor core: a shallow embedding of
`verl/workers/actor/dp_actor.py` (log-prob forward pass, compact-mask
projection, optimizer step, metric bookkeeping) and
`verl/utils/checkpoint/fsdp_checkpoint_manager.py` (sharded checkpoint
save/load protocol), together with theorems settling the specification
claims about them.

Machine floats appear only as the gradient-norm finiteness test; they are
modelled by `Flt` (an exact rational or a non-finite marker).  Tensors are
modelled as (nested) lists; log-probabilities are integers (any linearly
ordered ring would do, the claims never use their metric structure).
-/

/-! ## Floating-point scalars (finite vs NaN/Inf) -/

/-- A floating-point scalar as far as the claims need it: either a finite
value (kept exact as a rational) or a non-finite one (NaN or an infinity). -/
inductive Flt where
  | fin (q : ℚ)
  | nonfin
deriving DecidableEq

/-- `torch.isfinite` on a scalar. -/
def Flt.isFinite : Flt → Bool
  | .fin _ => true
  | .nonfin => false

/-! ## `DataParallelPPOActor._optimizer_step` (dp_actor.py lines 194-206)

The actor's training state is its parameters, its accumulated gradients and
the optimizer's internal state (momentum buffers and the like).  The clip
operation (`clip_grad_norm_`: rescales the gradients, returns the total
norm) and the optimizer update rule (`optimizer.step()`: produces new
parameters and new internal state from the post-clip gradients) are taken
as arbitrary functions; `_optimizer_step`'s own contribution is the
control flow around them, which is what claim C3 is about. -/

structure ActorState where
  params : List ℚ
  grads : List Flt
  optim : List ℚ
deriving DecidableEq

/-- `_optimizer_step` (dp_actor.py lines 194-206): clip the accumulated
gradient against the configured max norm, skip `optimizer.step()` when the
resulting norm is not finite, always clear the gradients, return the norm.
`clip grads maxNorm` returns the rescaled gradients and the total norm;
`step params grads optim` returns the updated parameters and optimizer
internal state. -/
def optimizer_step (clip : List Flt → ℚ → List Flt × Flt)
    (step : List ℚ → List Flt → List ℚ → List ℚ × List ℚ)
    (maxGradNorm : ℚ) (s : ActorState) : ActorState × Flt :=
  let c := clip s.grads maxGradNorm
  let s1 : ActorState := { s with grads := c.1 }
  let s2 : ActorState :=
    if c.2.isFinite then
      let p := step s1.params s1.grads s1.optim
      { s1 with params := p.1, optim := p.2 }
    else
      s1
  ({ s2 with grads := [] }, c.2)

/-! ## `FSDPCheckpointManager` (fsdp_checkpoint_manager.py)

A worker's checkpointable state is its model shard, optimizer shard,
scheduler state and process RNG state; the four state dicts are abstract
types.  The checkpoint directory is a record of the per-(world size, rank)
shard files plus the optional consolidated `merged_model` directory.  The
`dist.barrier()` calls and `local_mkdir` are inter-process synchronization
and directory creation and are no-ops in this single-worker file model;
the best-effort consolidated export's success or failure is an input
(`exportErr`), mirroring the `try ... except` at lines 138-154. -/

/-- The four components `FSDPCheckpointManager` saves and restores. -/
structure Worker (M O S R : Type) where
  model : M
  optim : O
  sched : S
  rng : R
deriving DecidableEq

/-- A checkpoint directory: shard files keyed by world size and rank
(as in the `..._world_size_{W}_rank_{R}.pt` naming pattern), the extra
state file holding the scheduler state dict plus an optional RNG snapshot
(`{"lr_scheduler": ..., "rng": ...}`), and the best-effort consolidated
`merged_model` directory. -/
structure FS (M O S R : Type) where
  modelShard : Nat → Nat → Option M
  optimShard : Nat → Nat → Option O
  extraState : Nat → Nat → Option (S × Option R)
  merged : Option M

/-- Names of the artifacts a checkpoint save or load touches. -/
inductive CkptFile where
  | model_file (w r : Nat)
  | optim_file (w r : Nat)
  | extra_file (w r : Nat)
  | merged_dir
deriving DecidableEq

/-- Point update of a (world size, rank)-keyed file table. -/
def updAt {α : Type} (w r : Nat) (f : Nat → Nat → Option α) (x : α) :
    Nat → Nat → Option α :=
  fun w' r' => if w' = w ∧ r' = r then some x else f w' r'

/-- What a `save_checkpoint` call produced: the new directory contents, the
files this worker wrote, and the messages it printed. -/
structure SaveOut (M O S R : Type) where
  fs : FS M O S R
  writes : List CkptFile
  log : List String

/-- `FSDPCheckpointManager.save_checkpoint` (lines 98-155) for the worker of
the given rank in the given world size.  With `saveModelOnly` the worker
writes only its model shard, otherwise its model shard, optimizer shard and
extra state (scheduler + RNG).  Afterwards — regardless of `saveModelOnly` —
the consolidated `merged_model` export is attempted: on success only rank
zero writes it; on failure (`exportErr = some cause`) the exception is
caught and logged and nothing more is written. -/
def save_checkpoint {M O S R : Type} (w r : Nat) (st : Worker M O S R)
    (fs : FS M O S R) (saveModelOnly : Bool) (exportErr : Option String) :
    SaveOut M O S R :=
  let fs1 : FS M O S R :=
    if saveModelOnly then
      { fs with modelShard := updAt w r fs.modelShard st.model }
    else
      { fs with
          modelShard := updAt w r fs.modelShard st.model
          optimShard := updAt w r fs.optimShard st.optim
          extraState := updAt w r fs.extraState (st.sched, some st.rng) }
  let writes1 : List CkptFile :=
    if saveModelOnly then
      [CkptFile.model_file w r]
    else
      [CkptFile.model_file w r, CkptFile.optim_file w r, CkptFile.extra_file w r]
  match exportErr with
  | none =>
    if r = 0 then
      { fs := { fs1 with merged := some st.model }
        writes := writes1 ++ [CkptFile.merged_dir]
        log := ["try to save merged model to huggingface format..."] }
    else
      { fs := fs1
        writes := writes1
        log := ["try to save merged model to huggingface format..."] }
  | some cause =>
    { fs := fs1
      writes := writes1
      log := ["try to save merged model to huggingface format...",
              "Failed to save merged model: " ++ cause,
              "Skipping saving merged model to huggingface format."] }

/-- What a `load_checkpoint` call produced: the worker's restored state and
the files it read. -/
structure LoadOut (M O S R : Type) where
  worker : Worker M O S R
  reads : List CkptFile
deriving DecidableEq

/-- `FSDPCheckpointManager.load_checkpoint` (lines 59-96).  `none` for the
directory models `path is None` (the function returns immediately).  When
the worker's optimizer shard file is absent only the model shard is
restored; otherwise the optimizer, extra state and model files are read (in
that order), model/optimizer/scheduler are restored, and the RNG state is
restored when the extra state dict contains an `"rng"` entry.  A missing
file that the branch does read is an uncaught exception (`.error`). -/
def load_checkpoint {M O S R : Type} (dir? : Option (FS M O S R))
    (w r : Nat) (st : Worker M O S R) : Except String (LoadOut M O S R) :=
  match dir? with
  | none => .ok { worker := st, reads := [] }
  | some fs =>
    match fs.optimShard w r with
    | none =>
      match fs.modelShard w r with
      | none => .error "FileNotFoundError: model shard"
      | some m =>
        .ok { worker := { st with model := m }
              reads := [CkptFile.model_file w r] }
    | some o =>
      match fs.extraState w r, fs.modelShard w r with
      | some ex, some m =>
        .ok { worker :=
                { model := m
                  optim := o
                  sched := ex.1
                  rng := match ex.2 with | some rg => rg | none => st.rng }
              reads := [CkptFile.optim_file w r, CkptFile.extra_file w r,
                        CkptFile.model_file w r] }
      | _, _ => .error "FileNotFoundError: extra state or model shard"

/-! ## Grids, boolean-mask selection and scatter

Tensors of the actor's data plane are modelled as lists of rows.  PyTorch
boolean-mask indexing `t[mask]` reads the `true` positions in row-major
order; the masked assignment `t[mask] = vals` writes `vals` into the `true`
positions in row-major order and errors when the counts disagree. -/

/-- A 2-D tensor as a list of rows. -/
abbrev Grid (α : Type) := List (List α)

/-- Number of `true` entries of a boolean row. -/
def countT (bs : List Bool) : Nat := (bs.filter id).length

/-- Number of `true` entries of a boolean grid. -/
def countTrue (mask : Grid Bool) : Nat := (mask.map countT).sum

/-- Row-level boolean-mask selection: the values at the `true` positions,
left to right. -/
def maskSelectRow {α : Type} (mask : List Bool) (vals : List α) : List α :=
  (mask.zip vals).filterMap fun p => if p.1 then some p.2 else none

/-- Grid-level boolean-mask selection, row-major. -/
def maskSelect {α : Type} (mask : Grid Bool) (vals : Grid α) : List α :=
  ((mask.zip vals).map fun p => maskSelectRow p.1 p.2).flatten

/-- Row-level masked scatter: place the values at the `true` positions in
order, zero elsewhere; also return the unconsumed values. -/
def scatterRow : List Bool → List ℤ → List ℤ × List ℤ
  | [], vs => ([], vs)
  | b :: bs, vs =>
    if b then
      match vs with
      | [] =>
        let r := scatterRow bs []
        (0 :: r.1, r.2)
      | v :: vs' =>
        let r := scatterRow bs vs'
        (v :: r.1, r.2)
    else
      let r := scatterRow bs vs
      (0 :: r.1, r.2)

/-- Grid-level masked scatter, threading the flat value list row by row. -/
def scatterRows : List (List Bool) → List ℤ → Grid ℤ
  | [], _ => []
  | m :: ms, vs =>
    let r := scatterRow m vs
    r.1 :: scatterRows ms r.2

/-- `DataParallelPPOActor._get_compact_response_log_probs` (dp_actor.py
lines 76-79): start from zeros shaped like `compact_response_mask` and
assign `log_probs[response_mask]` into its `true` positions.  `none` models
the runtime errors PyTorch raises when `response_mask` does not match
`log_probs` in shape or when the two masks select different counts. -/
def get_compact_response_log_probs (responseMask : Grid Bool)
    (logProbs : Grid ℤ) (compactResponseMask : Grid Bool) :
    Option (Grid ℤ) :=
  if responseMask.map List.length = logProbs.map List.length then
    let sel := maskSelect responseMask logProbs
    if countTrue compactResponseMask = sel.length then
      some (scatterRows compactResponseMask sel)
    else
      none
  else
    none

/-! ## `DataParallelPPOActor._forward_micro_batch` (dp_actor.py lines 81-192)

One position of a micro-batch carries its token id, its attention-mask bit,
its position id and its response-mask bit.  The underlying language model —
out of scope per the spec beyond "produces logits given token ids and
position ids" — is abstracted as a function `M` from the temperature, the
causally visible (token id, position id) context and a label token to the
label's log-probability after the `logits.div_(temperature)` scaling; both
layouts invoke the same `M`.  In padded mode the context of a position is
the attended prefix of its own row (the attention-mask semantics); in
padding-free mode the flat unpadded sequence is segmented per sample and
each position's context is the prefix of its own segment (the
flash-attention varlen semantics).  Multi-modal inputs are identical in the
two calls and are absorbed into `M`; the embedding models
`ulysses_size = 1`, where sequence-parallel slice and gather are the
identity. -/

/-- One position of a padded micro-batch: token id, attention-mask bit,
position id, response-mask bit. -/
structure Cell where
  tok : Nat
  attn : Bool
  pos : Nat
  resp : Bool
deriving DecidableEq

/-- Default cell used by total indexing. -/
def dCell : Cell := { tok := 0, attn := false, pos := 0, resp := false }

instance : Inhabited Cell := ⟨dCell⟩

/-- The `response_mask` tensor of a micro-batch. -/
def respGrid (rows : List (List Cell)) : Grid Bool :=
  rows.map fun r => r.map Cell.resp

/-- The `attention_mask` tensor of a micro-batch. -/
def attnGrid (rows : List (List Cell)) : Grid Bool :=
  rows.map fun r => r.map Cell.attn

/-- The non-padding cells of one row, in order (`unpad_input` keeps the
positions whose attention-mask bit is set, row-major). -/
def keptRow (row : List Cell) : List Cell := row.filter Cell.attn

/-- The (token id, position id) pair the model sees at a cell. -/
def cellTP (c : Cell) : Nat × Nat := (c.tok, c.pos)

/-- `input_ids_rmpad`: the flat packed token sequence produced by
`unpad_input` — all non-padding tokens, rows concatenated in order. -/
def flatToks (rows : List (List Cell)) : List Nat :=
  (rows.map fun r => (keptRow r).map Cell.tok).flatten

/-- `torch.roll(x, shifts=-1)` on a 1-D tensor: entry `i` becomes the old
entry `(i+1) mod n`. -/
def rollNeg1 {α : Type} : List α → List α
  | [] => []
  | a :: t => t ++ [a]

/-- `input_ids_rmpad_rolled` (line 129): the packed labels, the flat token
sequence rolled left by one across the whole packed sequence. -/
def rolledLabels (rows : List (List Cell)) : List Nat :=
  rollNeg1 (flatToks rows)

/-- `[0, 1, ..., n-1]`, recursion-friendly. -/
def rangeList : Nat → List Nat
  | 0 => []
  | n + 1 => rangeList n ++ [n]

/-- The abstract scored model: temperature, visible (token id, position id)
context, label token ↦ the label's log-probability (the composite of the
model forward, the temperature division and `log_probs_from_logits`). -/
abbrev PolicyModel := ℚ → List (Nat × Nat) → Nat → ℤ

/-- Per-position log-probabilities of one packed segment (the kept cells of
one row): position `j` scores label `labels[j]` against the context
`k[0..j]` — the varlen-attention causal prefix of its own segment. -/
def packedRowVals (M : PolicyModel) (τ : ℚ) (k : List Cell)
    (labels : List Nat) : List ℤ :=
  (rangeList k.length).map fun j => M τ ((k.take (j + 1)).map cellTP) (labels.getD j 0)

/-- The packed forward pass over all segments, consuming the flat rolled
label sequence segment by segment. -/
def packedValsAux (M : PolicyModel) (τ : ℚ) :
    List (List Cell) → List Nat → List ℤ
  | [], _ => []
  | r :: rs, labels =>
    packedRowVals M τ (keptRow r) labels ++
      packedValsAux M τ rs (labels.drop (keptRow r).length)

/-- The flat packed log-probabilities (line 153), labels taken from the
globally rolled flat token sequence. -/
def packedVals (M : PolicyModel) (τ : ℚ) (rows : List (List Cell)) : List ℤ :=
  packedValsAux M τ rows (rolledLabels rows)

/-- `pad_input` (lines 161-167): scatter the flat packed log-probabilities
back to the padded layout by the attention mask, zeros at padding. -/
def packed_full_log_probs (M : PolicyModel) (τ : ℚ)
    (rows : List (List Cell)) : Grid ℤ :=
  scatterRows (attnGrid rows) (packedVals M τ rows)

/-- Per-position log-probabilities of one padded row (lines 171-183):
position `s` scores `labels = torch.roll(input_ids, -1, dims=1)` at `s` —
the roll is per row — against the attended prefix of the row. -/
def paddedRowVals (M : PolicyModel) (τ : ℚ) (row : List Cell) : List ℤ :=
  (rangeList row.length).map fun s =>
    M τ (((row.take (s + 1)).filter Cell.attn).map cellTP)
      ((rollNeg1 (row.map Cell.tok)).getD s 0)

/-- The padded-mode full log-probability grid. -/
def padded_full_log_probs (M : PolicyModel) (τ : ℚ)
    (rows : List (List Cell)) : Grid ℤ :=
  rows.map (paddedRowVals M τ)

/-- `_forward_micro_batch` with `padding_free` disabled: padded forward
pass, then the compact projection (line 191). -/
def forward_micro_batch_padded (M : PolicyModel) (τ : ℚ)
    (rows : List (List Cell)) (cmask : Grid Bool) : Option (Grid ℤ) :=
  get_compact_response_log_probs (respGrid rows)
    (padded_full_log_probs M τ rows) cmask

/-- `_forward_micro_batch` with `padding_free` enabled: unpad, packed
forward pass, pad back, then the compact projection (line 191). -/
def forward_micro_batch_packed (M : PolicyModel) (τ : ℚ)
    (rows : List (List Cell)) (cmask : Grid Bool) : Option (Grid ℤ) :=
  get_compact_response_log_probs (respGrid rows)
    (packed_full_log_probs M τ rows) cmask

/-! ## The KL-penalty branch of `update_policy` (dp_actor.py lines 310-321) -/

/-- Modelled from the spec: `core_algos.compute_kl` is not under `src/`;
per the spec it is an elementwise KL estimate between the current and the
reference policy's log-probabilities, shaped like its inputs (the k1
estimator: the per-token log-probability difference). -/
def compute_kl (logProbs refLogProbs : Grid ℚ) : Grid ℚ :=
  (logProbs.zip refLogProbs).map fun p =>
    (p.1.zip p.2).map fun q => q.1 - q.2

/-- Modelled from the spec: `core_algos.average_loss` is not under `src/`;
per the spec it mask-averages elementwise values over a 0-1 mask of the
same shape (average over valid tokens).  A shape mismatch between the
values and the mask is a tensor-shape runtime error, modelled by `none`. -/
def average_loss (vals : Grid ℚ) (mask : Grid Bool) : Option ℚ :=
  if vals.map List.length = mask.map List.length then
    some ((maskSelect mask vals).sum / (countTrue mask : ℚ))
  else
    none

/-- The KL-penalty branch of `update_policy` as written (dp_actor.py lines
310-321): when `use_kl_loss` is on and reference log-probs are present, the
KL between the compact-layout current and reference log-probs is averaged
over `response_mask` — the padded-layout mask — scaled by `kl_coef` and
added to the surrogate loss.  `none` models the runtime error of the mask
average. -/
def update_policy_kl_term (useKlLoss : Bool) (refLogProbs : Option (Grid ℚ))
    (logProbs : Grid ℚ) (responseMask compactResponseMask : Grid Bool)
    (klCoef : ℚ) (pgLoss : ℚ) : Option ℚ :=
  if useKlLoss then
    match refLogProbs with
    | some ref =>
      match average_loss (compute_kl logProbs ref) responseMask with
      | some klLoss => some (pgLoss + klLoss * klCoef)
      | none => none
    | none => some pgLoss
  else
    some pgLoss

/-- The same branch as claim C6 states it: the KL estimate is averaged over
the compact response mask, the mask aligned with the compact log-prob
layout handed to the loss engine. -/
def update_policy_kl_term_claim (useKlLoss : Bool)
    (refLogProbs : Option (Grid ℚ)) (logProbs : Grid ℚ)
    (responseMask compactResponseMask : Grid Bool)
    (klCoef : ℚ) (pgLoss : ℚ) : Option ℚ :=
  if useKlLoss then
    match refLogProbs with
    | some ref =>
      match average_loss (compute_kl logProbs ref) compactResponseMask with
      | some klLoss => some (pgLoss + klLoss * klCoef)
      | none => none
    | none => some pgLoss
  else
    some pgLoss

/-! ## Metric bookkeeping of `update_policy` (dp_actor.py lines 259-349)

`metrics` is a Python dict from metric name to either a list (the keys fed
through `append_to_dict`) or a bare float (the keys assigned directly).
The numeric payload of each reporting event is abstracted as given
rationals; the claims are about how the dict accumulates them across the
epoch → mini-batch → micro-batch loops. -/

/-- A value stored in the metrics dict: a bare scalar or an ordered
collection. -/
inductive MetricVal where
  | scalar (x : ℚ)
  | series (l : List ℚ)
deriving DecidableEq

/-- The metrics dict, insertion-ordered like a Python dict. -/
abbrev Metrics := List (String × MetricVal)

/-- `d[k] = v`: overwrite in place, insert at the end when absent. -/
def setKey : Metrics → String → MetricVal → Metrics
  | [], k, v => [(k, v)]
  | p :: rest, k, v =>
    if p.1 = k then (k, v) :: rest else p :: setKey rest k v

/-- Modelled from the spec: `py_functional.append_to_dict` is not under
`src/`; per the spec it appends the value to the per-key ordered
collection, creating it when the key is absent.  Appending to a key that
holds a bare scalar is a runtime type error, modelled by `none`. -/
def appendKey (m : Metrics) (k : String) (x : ℚ) : Option Metrics :=
  match List.lookup k m with
  | none => some (m ++ [(k, MetricVal.series [x])])
  | some (MetricVal.series l) => some (setKey m k (MetricVal.series (l ++ [x])))
  | some (MetricVal.scalar _) => none

/-- The metric payload of one micro-batch reporting event: the surrogate
loss, both clip fractions, the entropy proxy, the approximate KL, and —
when the KL-penalty branch ran — the KL loss value and coefficient. -/
structure MicroMetrics where
  pgLoss : ℚ
  clipHigher : ℚ
  clipLower : ℚ
  entropy : ℚ
  ppoKl : ℚ
  klPair : Option (ℚ × ℚ)
deriving DecidableEq

/-- One mini-batch: its micro-batch events and the gradient norm its
optimizer step reported. -/
structure MiniBatch where
  micros : List MicroMetrics
  gradNorm : ℚ
deriving DecidableEq

/-- The metric writes of one micro-batch iteration (lines 310-333): the KL
branch assigns `metrics["actor/kl_loss"]` and `metrics["actor/kl_coef"]`
directly (lines 320-321), then `append_to_dict` appends the five
`batch_metrics` keys (lines 326-333). -/
def record_micro (m : Metrics) (r : MicroMetrics) : Option Metrics :=
  let m1 :=
    match r.klPair with
    | some p =>
      setKey (setKey m "actor/kl_loss" (MetricVal.scalar p.1))
        "actor/kl_coef" (MetricVal.scalar p.2)
    | none => m
  (appendKey m1 "actor/pg_loss" r.pgLoss).bind fun m2 =>
  (appendKey m2 "actor/pg_clipfrac_higher" r.clipHigher).bind fun m3 =>
  (appendKey m3 "actor/pg_clipfrac_lower" r.clipLower).bind fun m4 =>
  (appendKey m4 "actor/entropy_loss" r.entropy).bind fun m5 =>
  appendKey m5 "actor/ppo_kl" r.ppoKl

/-- The metric writes of one mini-batch iteration: the micro-batch events
in order, then the appended gradient norm (lines 340-341). -/
def record_mini (m : Metrics) (mb : MiniBatch) : Option Metrics :=
  (mb.micros.foldlM record_micro m).bind fun m2 =>
    appendKey m2 "actor/grad_norm" mb.gradNorm

/-- The metric bookkeeping of `update_policy`: `ppo_epochs` passes over the
mini-batches, starting from the empty dict (line 272), returning the dict
(line 349). -/
def update_policy_metrics (ppoEpochs : Nat) (miniBatches : List MiniBatch) :
    Option Metrics :=
  ((List.replicate ppoEpochs miniBatches).flatten).foldlM record_mini []

/-- The mini-batch iterations of a run, in order. -/
def miniSeq (ppoEpochs : Nat) (miniBatches : List MiniBatch) :
    List MiniBatch :=
  (List.replicate ppoEpochs miniBatches).flatten

/-- The micro-batch reporting events of a run, in order. -/
def microSeq (ppoEpochs : Nat) (miniBatches : List MiniBatch) :
    List MicroMetrics :=
  ((miniSeq ppoEpochs miniBatches).map MiniBatch.micros).flatten

/-- The KL-branch events of a run, in order. -/
def klSeq (ppoEpochs : Nat) (miniBatches : List MiniBatch) :
    List (ℚ × ℚ) :=
  (microSeq ppoEpochs miniBatches).filterMap MicroMetrics.klPair

/-- The collection a metrics key holds after some events: absent when no
event reported it, otherwise the ordered series. -/
def toSeries (l : List ℚ) : Option MetricVal :=
  if l = [] then none else some (MetricVal.series l)

/-- The value the KL keys hold after a sequence of micro-batch events:
each KL-branch event overwrites them, non-KL events leave them alone. -/
def klAfter (kl : Option (ℚ × ℚ)) (rs : List MicroMetrics) : Option (ℚ × ℚ) :=
  rs.foldl
    (fun acc r =>
      match r.klPair with
      | some p => some p
      | none => acc)
    kl

/-- The bookkeeping invariant of the metrics dict: each appended key holds
the ordered series of the values reported so far (absent when none were),
and the two KL keys hold the most recently assigned bare scalars (absent
when the KL branch never ran). -/
def GoodMetrics (m : Metrics) (pg ch cl en pk gn : List ℚ)
    (kl : Option (ℚ × ℚ)) : Prop :=
  List.lookup "actor/pg_loss" m = toSeries pg
  ∧ List.lookup "actor/pg_clipfrac_higher" m = toSeries ch
  ∧ List.lookup "actor/pg_clipfrac_lower" m = toSeries cl
  ∧ List.lookup "actor/entropy_loss" m = toSeries en
  ∧ List.lookup "actor/ppo_kl" m = toSeries pk
  ∧ List.lookup "actor/grad_norm" m = toSeries gn
  ∧ List.lookup "actor/kl_loss" m = kl.map (fun p => MetricVal.scalar p.1)
  ∧ List.lookup "actor/kl_coef" m = kl.map (fun p => MetricVal.scalar p.2)

/-! ## Concrete sample data used by witnesses and counterexamples -/

/-- A sample worker state. -/
def wSample : Worker ℕ ℕ ℕ ℕ := { model := 11, optim := 22, sched := 33, rng := 44 }

/-- A freshly constructed worker, different in every component. -/
def wFresh : Worker ℕ ℕ ℕ ℕ := { model := 1, optim := 2, sched := 3, rng := 4 }

/-- An empty checkpoint directory. -/
def fsEmpty : FS ℕ ℕ ℕ ℕ :=
  { modelShard := fun _ _ => none
    optimShard := fun _ _ => none
    extraState := fun _ _ => none
    merged := none }

/-- A directory holding only the model shard of world size 2, rank 1. -/
def fsModelOnly : FS ℕ ℕ ℕ ℕ :=
  { fsEmpty with modelShard := fun w r => if w = 2 ∧ r = 1 then some 77 else none }

/-- A clip function reporting a finite total norm. -/
def clipKeep : List Flt → ℚ → List Flt × Flt := fun g _ => (g, Flt.fin 1)

/-- A clip function reporting a non-finite total norm (a synthetic
non-finite gradient). -/
def clipBlow : List Flt → ℚ → List Flt × Flt := fun g _ => (g, Flt.nonfin)

/-- A sample optimizer update rule: bump every parameter and every internal
state entry. -/
def stepAdd : List ℚ → List Flt → List ℚ → List ℚ × List ℚ :=
  fun p _ o => (p.map (· + 1), o.map (· + 1))

/-- A sample actor training state. -/
def actorSample : ActorState := { params := [5, 6], grads := [Flt.fin 2], optim := [9] }

/-- A concrete scored model: the label is recoverable from the score, so
two calls scoring different labels give different log-probabilities. -/
def modelScore : PolicyModel := fun _ ctx lab => (ctx.length : ℤ) * 100 + (lab : ℤ)

/-- A micro-batch whose single response position is the last non-padding
token of its sample: sample 0 is `[10, PAD]` with the response mask on
token `10`, sample 1 is `[20, 30]`. -/
def rowsBoundary : List (List Cell) :=
  [[{ tok := 10, attn := true, pos := 0, resp := true },
    { tok := 0, attn := false, pos := 0, resp := false }],
   [{ tok := 20, attn := true, pos := 0, resp := false },
    { tok := 30, attn := true, pos := 1, resp := false }]]

/-- A micro-batch whose single response position is followed by another
attended token of the same sample. -/
def rowsSafe : List (List Cell) :=
  [[{ tok := 5, attn := true, pos := 0, resp := true },
    { tok := 6, attn := true, pos := 1, resp := false }]]

/-- A compact response mask with a single response token. -/
def cmaskOne : Grid Bool := [[true]]

/-- Sample padded-layout response mask for the compact projection. -/
def rmSample : Grid Bool := [[true, false], [false, true]]

/-- Sample full-layout log-probability grid. -/
def lpSample : Grid ℤ := [[3, 4], [5, 6]]

/-- Sample compact mask with the same number of `true` entries as
`rmSample`. -/
def cmSample : Grid Bool := [[true], [true]]

/-- Compact-layout current log-probs of a sample with a 2-token prompt and
a 2-token response (compact shape 1 × 2). -/
def lpCompact : Grid ℚ := [[1, 2]]

/-- Compact-layout reference log-probs of the same sample. -/
def refCompact : Grid ℚ := [[0, 0]]

/-- The padded-layout response mask of that sample (shape 1 × 4: prompt
positions unmasked, response positions masked). -/
def rmPadded : Grid Bool := [[false, false, true, true]]

/-- The compact response mask of that sample (shape 1 × 2). -/
def cmCompact : Grid Bool := [[true, true]]

/-- A mini-batch of two micro-batch events, both reporting a KL loss. -/
def mbKl : MiniBatch :=
  { micros :=
      [{ pgLoss := 1, clipHigher := 0, clipLower := 0, entropy := 0,
         ppoKl := 0, klPair := some (3, 9) },
       { pgLoss := 2, clipHigher := 0, clipLower := 0, entropy := 0,
         ppoKl := 0, klPair := some (5, 9) }]
    gradNorm := 7 }

/-! ## Theorems: the optimizer step (claim C3) -/

/-- Claim C3: after clipping the accumulated gradient against the
configured maximum norm, a non-finite resulting norm skips the optimizer
step — the parameters (and optimizer internal state) are left identical —
while the accumulated gradients are still cleared; a finite norm applies
the optimizer step to the post-clip state and then clears the gradients.
Either way the clipped norm is returned. -/
theorem optimizer_step_skip_or_apply
    (clip : List Flt → ℚ → List Flt × Flt)
    (step : List ℚ → List Flt → List ℚ → List ℚ × List ℚ)
    (maxn : ℚ) (s : ActorState) :
    ((clip s.grads maxn).2.isFinite = false →
      (optimizer_step clip step maxn s).1.params = s.params
      ∧ (optimizer_step clip step maxn s).1.optim = s.optim
      ∧ (optimizer_step clip step maxn s).1.grads = []
      ∧ (optimizer_step clip step maxn s).2 = (clip s.grads maxn).2)
    ∧ ((clip s.grads maxn).2.isFinite = true →
      (optimizer_step clip step maxn s).1.params
          = (step s.params (clip s.grads maxn).1 s.optim).1
      ∧ (optimizer_step clip step maxn s).1.optim
          = (step s.params (clip s.grads maxn).1 s.optim).2
      ∧ (optimizer_step clip step maxn s).1.grads = []
      ∧ (optimizer_step clip step maxn s).2 = (clip s.grads maxn).2) := by
  constructor <;> intro h <;> simp [optimizer_step, h]

/-- Witness for C3: a synthetic non-finite gradient norm leaves the
parameters untouched, a finite one applies the step. -/
theorem optimizer_step_skip_or_apply_witness :
    ((optimizer_step clipBlow stepAdd 1 actorSample).1.params = actorSample.params
      ∧ (optimizer_step clipBlow stepAdd 1 actorSample).1.grads = [])
    ∧ (optimizer_step clipKeep stepAdd 1 actorSample).1.params
        = (stepAdd actorSample.params (clipKeep actorSample.grads 1).1 actorSample.optim).1 :=
  ⟨⟨((optimizer_step_skip_or_apply clipBlow stepAdd 1 actorSample).1 rfl).1,
    ((optimizer_step_skip_or_apply clipBlow stepAdd 1 actorSample).1 rfl).2.2.1⟩,
   ((optimizer_step_skip_or_apply clipKeep stepAdd 1 actorSample).2 rfl).1⟩

/-! ## Theorems: the checkpoint lifecycle (claims C4, C5, C8, C9, C10) -/

/-- Claim C4: saving with `save_model_only = False` and reloading from the
resulting directory into a freshly constructed worker of the same world
size and rank restores the model, optimizer, scheduler and RNG state of
the saved worker exactly (so subsequent random draws coincide), reading
the optimizer, extra-state and model shard files. -/
theorem checkpoint_round_trip {M O S R : Type} (w r : Nat)
    (st st0 : Worker M O S R) (fs : FS M O S R) (exportErr : Option String) :
    load_checkpoint (some (save_checkpoint w r st fs false exportErr).fs) w r st0
      = .ok { worker := st
              reads := [CkptFile.optim_file w r, CkptFile.extra_file w r,
                        CkptFile.model_file w r] } := by
  rcases exportErr with _ | cause
  · by_cases h : r = 0 <;> simp [save_checkpoint, load_checkpoint, updAt, h]
  · simp [save_checkpoint, load_checkpoint, updAt]

/-- Claim C5: when the directory holds the worker's model shard but no
optimizer shard, loading succeeds, restores only the model, and leaves the
optimizer, scheduler and RNG state unchanged, reading only the model shard
file. -/
theorem load_checkpoint_model_only {M O S R : Type} (w r : Nat)
    (st : Worker M O S R) (fs : FS M O S R) (m : M)
    (hopt : fs.optimShard w r = none) (hmod : fs.modelShard w r = some m) :
    load_checkpoint (some fs) w r st
      = .ok { worker := { st with model := m }
              reads := [CkptFile.model_file w r] } := by
  simp [load_checkpoint, hopt, hmod]

/-- Witness for C5 at a concrete directory holding only a model shard. -/
theorem load_checkpoint_model_only_witness :
    fsModelOnly.optimShard 2 1 = none
    ∧ fsModelOnly.modelShard 2 1 = some 77
    ∧ load_checkpoint (some fsModelOnly) 2 1 wFresh
        = .ok { worker := { model := 77, optim := 2, sched := 3, rng := 4 }
                reads := [CkptFile.model_file 2 1] } :=
  ⟨rfl, rfl, load_checkpoint_model_only 2 1 wFresh fsModelOnly 77 rfl rfl⟩

/-- Claim C8: a failure of the consolidated export is caught and logged
with its underlying cause, the per-worker sharded model/optimizer/extra
files written earlier in the call are unaffected and the save completes;
a worker of non-zero rank never writes the `merged_model` directory. -/
theorem save_checkpoint_export_best_effort {M O S R : Type} (w r : Nat)
    (st : Worker M O S R) (fs : FS M O S R) (cause : String) :
    ((save_checkpoint w r st fs false (some cause)).fs.modelShard w r = some st.model)
    ∧ ((save_checkpoint w r st fs false (some cause)).fs.optimShard w r = some st.optim)
    ∧ ((save_checkpoint w r st fs false (some cause)).fs.extraState w r
        = some (st.sched, some st.rng))
    ∧ (save_checkpoint w r st fs false (some cause)).fs.merged = fs.merged
    ∧ ("Failed to save merged model: " ++ cause)
        ∈ (save_checkpoint w r st fs false (some cause)).log
    ∧ CkptFile.merged_dir ∉ (save_checkpoint w r st fs false (some cause)).writes
    ∧ ∀ exportErr : Option String, r ≠ 0 →
        (save_checkpoint w r st fs false exportErr).fs.merged = fs.merged
        ∧ CkptFile.merged_dir ∉ (save_checkpoint w r st fs false exportErr).writes := by
  refine ⟨by simp [save_checkpoint, updAt], by simp [save_checkpoint, updAt],
    by simp [save_checkpoint, updAt], by simp [save_checkpoint],
    by simp [save_checkpoint], by simp [save_checkpoint], ?_⟩
  intro exportErr hr
  rcases exportErr with _ | c <;> simp [save_checkpoint, hr]

/-- Witness for C8: rank 1 of world size 2 saving with a failing export:
shards written, `merged_model` untouched whether the export fails or
succeeds. -/
theorem save_checkpoint_export_best_effort_witness :
    (save_checkpoint 2 1 wSample fsEmpty false (some "disk full")).fs.merged
        = fsEmpty.merged
    ∧ (save_checkpoint 2 1 wSample fsEmpty false none).fs.merged = fsEmpty.merged
    ∧ ("Failed to save merged model: " ++ "disk full")
        ∈ (save_checkpoint 2 1 wSample fsEmpty false (some "disk full")).log :=
  ⟨(save_checkpoint_export_best_effort 2 1 wSample fsEmpty "disk full").2.2.2.1,
   ((save_checkpoint_export_best_effort 2 1 wSample fsEmpty "disk full").2.2.2.2.2.2
      none (by decide)).1,
   (save_checkpoint_export_best_effort 2 1 wSample fsEmpty "disk full").2.2.2.2.1⟩

/-- Counterexample to C9 as stated: on rank zero, a
`save_checkpoint(path, save_model_only=True)` call whose consolidated
export succeeds writes more than just the model shard file — the
`merged_model` directory is written too. -/
theorem save_model_only_writes_more_than_model_shard :
    (save_checkpoint 1 0 wSample fsEmpty true none).writes
      ≠ [CkptFile.model_file 1 0] := by
  decide

/-- Claim C9 amended: with `save_model_only = True` the worker writes its
model shard and neither an optimizer-shard nor an extra-state file — the
optimizer and extra-state tables of the directory are untouched — but the
call still attempts the best-effort consolidated export, so rank zero
additionally writes the `merged_model` directory when that export
succeeds. -/
theorem save_model_only_writes {M O S R : Type} (w r : Nat)
    (st : Worker M O S R) (fs : FS M O S R) (exportErr : Option String) :
    ((save_checkpoint w r st fs true exportErr).writes
        = [CkptFile.model_file w r]
            ++ (if r = 0 ∧ exportErr = none then [CkptFile.merged_dir] else []))
    ∧ (save_checkpoint w r st fs true exportErr).fs.modelShard
        = updAt w r fs.modelShard st.model
    ∧ (save_checkpoint w r st fs true exportErr).fs.optimShard = fs.optimShard
    ∧ (save_checkpoint w r st fs true exportErr).fs.extraState = fs.extraState := by
  rcases exportErr with _ | c
  · by_cases h : r = 0 <;> simp [save_checkpoint, h]
  · simp [save_checkpoint]

/-- Claim C10: loading with `path = None` returns immediately: the worker's
model, optimizer, scheduler and RNG state are unchanged and no file is
read. -/
theorem load_checkpoint_none_noop {M O S R : Type} (w r : Nat)
    (st : Worker M O S R) :
    load_checkpoint (none : Option (FS M O S R)) w r st
      = .ok { worker := st, reads := [] } := rfl

/-! ## Lemmas: boolean-mask scatter and select -/

theorem countT_nil : countT [] = 0 := rfl

theorem countT_cons_true (bs : List Bool) : countT (true :: bs) = countT bs + 1 := by
  simp [countT]

theorem countT_cons_false (bs : List Bool) : countT (false :: bs) = countT bs := by
  simp [countT]

theorem scatterRow_fst_length :
    ∀ (bs : List Bool) (vs : List ℤ), (scatterRow bs vs).1.length = bs.length := by
  intro bs
  induction bs with
  | nil => intro vs; simp [scatterRow]
  | cons b bs ih =>
    intro vs
    cases b <;> cases vs <;> simp [scatterRow, ih]

theorem scatterRow_snd :
    ∀ (bs : List Bool) (vs : List ℤ), (scatterRow bs vs).2 = vs.drop (countT bs) := by
  intro bs
  induction bs with
  | nil => intro vs; simp [scatterRow, countT_nil]
  | cons b bs ih =>
    intro vs
    cases b
    · simpa [scatterRow, countT_cons_false] using ih vs
    · cases vs with
      | nil => simp [scatterRow, ih]
      | cons v vs' => simp [scatterRow, countT_cons_true, ih]

theorem scatterRow_append :
    ∀ (bs : List Bool) (vs ws : List ℤ), vs.length = countT bs →
      scatterRow bs (vs ++ ws) = ((scatterRow bs vs).1, ws) := by
  intro bs
  induction bs with
  | nil =>
    intro vs ws h
    rw [countT_nil, List.length_eq_zero] at h
    subst h
    simp [scatterRow]
  | cons b bs ih =>
    intro vs ws h
    cases b
    · rw [countT_cons_false] at h
      simp [scatterRow, ih vs ws h]
    · rw [countT_cons_true] at h
      cases vs with
      | nil => simp at h
      | cons v vs' =>
        simp only [List.length_cons, Nat.add_right_cancel_iff] at h
        simp [scatterRow, ih vs' ws h]

theorem scatterRow_getD_true :
    ∀ (bs : List Bool) (vs : List ℤ) (s : Nat), bs.getD s false = true →
      (scatterRow bs vs).1.getD s 0 = vs.getD (countT (bs.take s)) 0 := by
  intro bs
  induction bs with
  | nil => intro vs s h; simp [List.getD] at h
  | cons b bs ih =>
    intro vs s h
    cases s with
    | zero =>
      simp only [List.getD_cons_zero] at h
      subst h
      cases vs <;> simp [scatterRow, countT_nil]
    | succ s =>
      simp only [List.getD_cons_succ] at h
      cases b
      · simpa [scatterRow, countT_cons_false] using ih vs s h
      · cases vs with
        | nil => simpa [scatterRow, countT_cons_true] using ih [] s h
        | cons v vs' => simpa [scatterRow, countT_cons_true] using ih vs' s h

theorem scatterRow_getD_zero :
    ∀ (bs : List Bool) (vs : List ℤ) (s : Nat), bs.getD s false = false →
      (scatterRow bs vs).1.getD s 0 = 0 := by
  intro bs
  induction bs with
  | nil => intro vs s _; simp [scatterRow]
  | cons b bs ih =>
    intro vs s h
    cases s with
    | zero =>
      simp only [List.getD_cons_zero] at h
      subst h
      simp [scatterRow]
    | succ s =>
      simp only [List.getD_cons_succ] at h
      cases b
      · simpa [scatterRow] using ih vs s h
      · cases vs with
        | nil => simpa [scatterRow] using ih [] s h
        | cons v vs' => simpa [scatterRow] using ih vs' s h

theorem maskSelectRow_scatterRow_take :
    ∀ (bs : List Bool) (vs : List ℤ), countT bs ≤ vs.length →
      maskSelectRow bs (scatterRow bs vs).1 = vs.take (countT bs) := by
  intro bs
  induction bs with
  | nil => intro vs _; simp [maskSelectRow, countT_nil]
  | cons b bs ih =>
    intro vs h
    cases b
    · rw [countT_cons_false] at h ⊢
      simp only [scatterRow]
      simpa [maskSelectRow] using ih vs h
    · rw [countT_cons_true] at h ⊢
      cases vs with
      | nil => simp at h
      | cons v vs' =>
        simp only [List.length_cons, Nat.add_le_add_iff_right] at h
        simp only [scatterRow]
        simpa [maskSelectRow, List.take_succ_cons] using ih vs' h

theorem maskSelectRow_length :
    ∀ (bs : List Bool) {α : Type} (vs : List α), bs.length = vs.length →
      (maskSelectRow bs vs).length = countT bs := by
  intro bs
  induction bs with
  | nil => intro α vs _; simp [maskSelectRow, countT_nil]
  | cons b bs ih =>
    intro α vs h
    cases vs with
    | nil => simp at h
    | cons v vs' =>
      simp only [List.length_cons, Nat.add_right_cancel_iff] at h
      cases b
      · simpa [maskSelectRow, countT_cons_false] using ih vs' h
      · simpa [maskSelectRow, countT_cons_true] using ih vs' h

theorem maskSelect_length :
    ∀ (mask : Grid Bool) {α : Type} (vals : Grid α),
      mask.map List.length = vals.map List.length →
      (maskSelect mask vals).length = countTrue mask := by
  intro mask
  induction mask with
  | nil => intro α vals _; simp [maskSelect, countTrue]
  | cons m ms ih =>
    intro α vals h
    cases vals with
    | nil => simp at h
    | cons v vs =>
      simp only [List.map_cons, List.cons.injEq] at h
      simp [maskSelect, countTrue, List.zip_cons_cons, maskSelectRow_length m v h.1]
      have h2 := ih vs h.2
      simp [maskSelect, countTrue] at h2
      omega

theorem scatterRows_shape :
    ∀ (ms : List (List Bool)) (vs : List ℤ),
      (scatterRows ms vs).map List.length = ms.map List.length := by
  intro ms
  induction ms with
  | nil => intro vs; simp [scatterRows]
  | cons m ms ih => intro vs; simp [scatterRows, scatterRow_fst_length, ih]

theorem maskSelect_scatterRows :
    ∀ (ms : Grid Bool) (vs : List ℤ), countTrue ms = vs.length →
      maskSelect ms (scatterRows ms vs) = vs := by
  intro ms
  induction ms with
  | nil =>
    intro vs h
    simp only [countTrue, List.map_nil, List.sum_nil] at h
    have hv : vs = [] := List.length_eq_zero.mp h.symm
    subst hv
    rfl
  | cons m ms ih =>
    intro vs h
    simp only [countTrue, List.map_cons, List.sum_cons] at h
    have hle : countT m ≤ vs.length := by omega
    simp only [scatterRows, maskSelect, List.zip_cons_cons, List.map_cons,
      List.flatten_cons]
    rw [scatterRow_snd]
    have h2 : countTrue ms = (vs.drop (countT m)).length := by
      simp [countTrue, List.length_drop]
      omega
    have hrec := ih (vs.drop (countT m)) h2
    simp only [maskSelect] at hrec
    rw [hrec, maskSelectRow_scatterRow_take m vs hle, List.take_append_drop]

theorem scatterRows_getD_zero :
    ∀ (ms : Grid Bool) (vs : List ℤ) (i j : Nat),
      (ms.getD i []).getD j false = false →
      ((scatterRows ms vs).getD i []).getD j 0 = 0 := by
  intro ms
  induction ms with
  | nil => intro vs i j _; simp [scatterRows]
  | cons m ms ih =>
    intro vs i j h
    cases i with
    | zero =>
      simp only [List.getD_cons_zero] at h
      simp only [scatterRows, List.getD_cons_zero]
      exact scatterRow_getD_zero m _ j h
    | succ i =>
      simp only [List.getD_cons_succ] at h
      simp only [scatterRows, List.getD_cons_succ]
      exact ih _ i j h

/-! ## Theorems: the compact projection (claim C2) -/

/-- Claim C2: when the padded response mask and the compact response mask
select the same number of positions (and the log-prob tensor has the
padded mask's shape, as boolean indexing requires), the compact projection
succeeds, returns a tensor shaped like the compact mask whose `true`
positions hold — in left-to-right row-major order — exactly the
log-probability values selected by the padded response mask, and whose
`false` positions are zero. -/
theorem get_compact_response_log_probs_correct (rm : Grid Bool) (lp : Grid ℤ)
    (cm : Grid Bool)
    (hsh : rm.map List.length = lp.map List.length)
    (hcnt : countTrue rm = countTrue cm) :
    ∃ res, get_compact_response_log_probs rm lp cm = some res
      ∧ res.map List.length = cm.map List.length
      ∧ maskSelect cm res = maskSelect rm lp
      ∧ ∀ i j, (cm.getD i []).getD j false = false →
          (res.getD i []).getD j 0 = 0 := by
  have hlen : (maskSelect rm lp).length = countTrue rm := maskSelect_length rm lp hsh
  have hc : countTrue cm = (maskSelect rm lp).length := by rw [hlen, hcnt]
  refine ⟨scatterRows cm (maskSelect rm lp), ?_, scatterRows_shape cm _, ?_, ?_⟩
  · simp only [get_compact_response_log_probs, if_pos hsh, if_pos hc]
  · exact maskSelect_scatterRows cm _ hc
  · intro i j h
    exact scatterRows_getD_zero cm _ i j h

/-- Witness for C2 at a concrete mask pair and log-prob grid. -/
theorem get_compact_response_log_probs_correct_witness :
    (rmSample.map List.length = lpSample.map List.length)
    ∧ (countTrue rmSample = countTrue cmSample)
    ∧ ∃ res, get_compact_response_log_probs rmSample lpSample cmSample = some res
        ∧ res.map List.length = cmSample.map List.length
        ∧ maskSelect cmSample res = maskSelect rmSample lpSample
        ∧ ∀ i j, (cmSample.getD i []).getD j false = false →
            (res.getD i []).getD j 0 = 0 :=
  ⟨by decide, by decide,
   get_compact_response_log_probs_correct rmSample lpSample cmSample
     (by decide) (by decide)⟩

/-! ## Theorems: the KL-penalty branch of update_policy (claim C6) -/

/-- Claim C6 is a code bug: on a micro-batch whose sample has a non-empty
prompt, the current and reference log-probs (and their KL estimate) live in
the compact layout, shape 1 × 2, while `response_mask` has the padded
layout, shape 1 × 4 — the code's `average_loss(kld, response_mask, ...)`
(dp_actor.py line 318) is a tensor-shape error, whereas averaging over
`compact_response_mask` as the claim states succeeds (here with KL
estimate (1-0) + (2-0) over 2 response tokens, giving 3/2 added to the
zero surrogate loss at coefficient 1). -/
theorem update_policy_kl_mask_divergence :
    update_policy_kl_term true (some refCompact) lpCompact rmPadded cmCompact 1 0
        = none
    ∧ update_policy_kl_term_claim true (some refCompact) lpCompact rmPadded cmCompact 1 0
        = some (3 / 2) := by
  constructor
  · decide
  · simp only [update_policy_kl_term_claim, average_loss, compute_kl, maskSelect,
      maskSelectRow, countTrue, countT, lpCompact, refCompact, cmCompact]
    norm_num [List.filterMap_cons, countT, List.filter]

/-! ## Lemmas: the metrics dict -/

theorem lookup_setKey_self :
    ∀ (m : Metrics) (k : String) (v : MetricVal),
      List.lookup k (setKey m k v) = some v := by
  intro m k v
  induction m with
  | nil => simp [setKey, List.lookup]
  | cons p rest ih =>
    rcases p with ⟨k1, v1⟩
    by_cases h : k1 = k
    · subst h
      simp [setKey, List.lookup]
    · have hne : (k == k1) = false := beq_eq_false_iff_ne.mpr fun hh => h hh.symm
      simp [setKey, h, List.lookup, hne, ih]

theorem lookup_setKey_ne :
    ∀ (m : Metrics) (k k' : String) (v : MetricVal), k' ≠ k →
      List.lookup k' (setKey m k v) = List.lookup k' m := by
  intro m k k' v hne
  induction m with
  | nil => simp [setKey, List.lookup, beq_eq_false_iff_ne.mpr hne]
  | cons p rest ih =>
    rcases p with ⟨k1, v1⟩
    by_cases h : k1 = k
    · subst h
      simp [setKey, List.lookup, beq_eq_false_iff_ne.mpr hne]
    · simp [setKey, h, List.lookup, ih]

theorem lookup_append_single :
    ∀ (m : Metrics) (k k' : String) (v : MetricVal), k' ≠ k →
      List.lookup k' (m ++ [(k, v)]) = List.lookup k' m := by
  intro m k k' v hne
  induction m with
  | nil => simp [List.lookup, beq_eq_false_iff_ne.mpr hne]
  | cons p rest ih =>
    rcases p with ⟨k1, v1⟩
    simp [List.lookup, ih]

theorem lookup_append_missing :
    ∀ (m : Metrics) (k : String) (v : MetricVal), List.lookup k m = none →
      List.lookup k (m ++ [(k, v)]) = some v := by
  intro m k v hm
  induction m with
  | nil => simp [List.lookup]
  | cons p rest ih =>
    rcases p with ⟨k1, v1⟩
    rw [List.cons_append]
    cases hbk : (k == k1) with
    | true =>
      exfalso
      simp only [List.lookup, hbk] at hm
      exact Option.noConfusion hm
    | false =>
      simp only [List.lookup, hbk] at hm ⊢
      exact ih hm

theorem appendKey_spec (m : Metrics) (k : String) (x : ℚ) (l : List ℚ)
    (hk : List.lookup k m = toSeries l) :
    ∃ m', appendKey m k x = some m'
      ∧ List.lookup k m' = toSeries (l ++ [x])
      ∧ ∀ k', k' ≠ k → List.lookup k' m' = List.lookup k' m := by
  by_cases hl : l = []
  · subst hl
    simp only [toSeries, if_pos rfl] at hk
    refine ⟨m ++ [(k, MetricVal.series [x])], ?_, ?_, ?_⟩
    · simp [appendKey, hk]
    · rw [lookup_append_missing m k _ hk]
      simp [toSeries]
    · intro k' hne
      exact lookup_append_single m k k' _ hne
  · have hk2 : List.lookup k m = some (MetricVal.series l) := by
      rw [hk]
      simp [toSeries, hl]
    refine ⟨setKey m k (MetricVal.series (l ++ [x])), ?_, ?_, ?_⟩
    · simp [appendKey, hk2]
    · rw [lookup_setKey_self]
      simp [toSeries]
    · intro k' hne
      exact lookup_setKey_ne m k k' _ hne

theorem goodMetrics_empty : GoodMetrics [] [] [] [] [] [] [] none := by
  simp [GoodMetrics, toSeries, List.lookup]

theorem klAfter_nil (kl : Option (ℚ × ℚ)) : klAfter kl [] = kl := rfl

theorem klAfter_append (kl : Option (ℚ × ℚ)) (rs1 rs2 : List MicroMetrics) :
    klAfter kl (rs1 ++ rs2) = klAfter (klAfter kl rs1) rs2 := by
  simp [klAfter, List.foldl_append]

theorem record_micro_good (m : Metrics) (pg ch cl en pk gn : List ℚ)
    (kl : Option (ℚ × ℚ)) (r : MicroMetrics)
    (h : GoodMetrics m pg ch cl en pk gn kl) :
    ∃ m', record_micro m r = some m'
      ∧ GoodMetrics m' (pg ++ [r.pgLoss]) (ch ++ [r.clipHigher])
          (cl ++ [r.clipLower]) (en ++ [r.entropy]) (pk ++ [r.ppoKl]) gn
          (klAfter kl [r]) := by
  obtain ⟨hpg, hch, hcl, hen, hpk, hgn, hkll, hklc⟩ := h
  have step1 :
      ∃ m1, (match r.klPair with
              | some p =>
                setKey (setKey m "actor/kl_loss" (MetricVal.scalar p.1))
                  "actor/kl_coef" (MetricVal.scalar p.2)
              | none => m) = m1
        ∧ GoodMetrics m1 pg ch cl en pk gn (klAfter kl [r]) := by
    cases hr : r.klPair with
    | none =>
      exact ⟨m, rfl, by
        simp only [klAfter, List.foldl, hr]
        exact ⟨hpg, hch, hcl, hen, hpk, hgn, hkll, hklc⟩⟩
    | some p =>
      refine ⟨_, rfl, ?_⟩
      simp only [klAfter, List.foldl, hr]
      refine ⟨?_, ?_, ?_, ?_, ?_, ?_, ?_, ?_⟩ <;>
        first
        | · rw [lookup_setKey_ne _ _ _ _ (by decide),
              lookup_setKey_ne _ _ _ _ (by decide)]
            assumption
        | · rw [lookup_setKey_ne _ _ _ _ (by decide), lookup_setKey_self]
            simp
        | · rw [lookup_setKey_self]
            simp
  obtain ⟨m1, hm1, g1⟩ := step1
  obtain ⟨gpg, gch, gcl, gen, gpk, ggn, gkll, gklc⟩ := g1
  obtain ⟨m2, e2, l2, o2⟩ := appendKey_spec m1 "actor/pg_loss" r.pgLoss pg gpg
  obtain ⟨m3, e3, l3, o3⟩ :=
    appendKey_spec m2 "actor/pg_clipfrac_higher" r.clipHigher ch
      ((o2 _ (by decide)).trans gch)
  obtain ⟨m4, e4, l4, o4⟩ :=
    appendKey_spec m3 "actor/pg_clipfrac_lower" r.clipLower cl
      ((o3 _ (by decide)).trans ((o2 _ (by decide)).trans gcl))
  obtain ⟨m5, e5, l5, o5⟩ :=
    appendKey_spec m4 "actor/entropy_loss" r.entropy en
      ((o4 _ (by decide)).trans ((o3 _ (by decide)).trans
        ((o2 _ (by decide)).trans gen)))
  obtain ⟨m6, e6, l6, o6⟩ :=
    appendKey_spec m5 "actor/ppo_kl" r.ppoKl pk
      ((o5 _ (by decide)).trans ((o4 _ (by decide)).trans
        ((o3 _ (by decide)).trans ((o2 _ (by decide)).trans gpk))))
  refine ⟨m6, ?_, ?_⟩
  · simp only [record_micro, hm1, e2, e3, e4, e5, e6, Option.some_bind]
  · refine ⟨?_, ?_, ?_, ?_, ?_, ?_, ?_, ?_⟩
    · rw [o6 _ (by decide), o5 _ (by decide), o4 _ (by decide), o3 _ (by decide)]
      exact l2
    · rw [o6 _ (by decide), o5 _ (by decide), o4 _ (by decide)]
      exact l3
    · rw [o6 _ (by decide), o5 _ (by decide)]
      exact l4
    · rw [o6 _ (by decide)]
      exact l5
    · exact l6
    · rw [o6 _ (by decide), o5 _ (by decide), o4 _ (by decide), o3 _ (by decide),
        o2 _ (by decide)]
      exact ggn
    · rw [o6 _ (by decide), o5 _ (by decide), o4 _ (by decide), o3 _ (by decide),
        o2 _ (by decide)]
      exact gkll
    · rw [o6 _ (by decide), o5 _ (by decide), o4 _ (by decide), o3 _ (by decide),
        o2 _ (by decide)]
      exact gklc

theorem foldlM_record_micro_good :
    ∀ (rs : List MicroMetrics) (m : Metrics) (pg ch cl en pk gn : List ℚ)
      (kl : Option (ℚ × ℚ)), GoodMetrics m pg ch cl en pk gn kl →
      ∃ m', List.foldlM record_micro m rs = some m'
        ∧ GoodMetrics m' (pg ++ rs.map MicroMetrics.pgLoss)
            (ch ++ rs.map MicroMetrics.clipHigher)
            (cl ++ rs.map MicroMetrics.clipLower)
            (en ++ rs.map MicroMetrics.entropy)
            (pk ++ rs.map MicroMetrics.ppoKl) gn (klAfter kl rs) := by
  intro rs
  induction rs with
  | nil =>
    intro m pg ch cl en pk gn kl h
    exact ⟨m, rfl, by simpa [klAfter_nil] using h⟩
  | cons r rs ih =>
    intro m pg ch cl en pk gn kl h
    obtain ⟨m1, e1, g1⟩ := record_micro_good m pg ch cl en pk gn kl r h
    obtain ⟨m', e', g'⟩ := ih m1 _ _ _ _ _ gn (klAfter kl [r]) g1
    refine ⟨m', ?_, ?_⟩
    · simp only [List.foldlM_cons, e1, Option.bind_eq_bind, Option.some_bind]
      exact e'
    · have hk : klAfter kl (r :: rs) = klAfter (klAfter kl [r]) rs := by
        rw [← List.singleton_append, klAfter_append]
      rw [hk]
      simpa [List.map_cons, List.append_assoc, List.singleton_append] using g'

theorem record_mini_good (mb : MiniBatch) (m : Metrics)
    (pg ch cl en pk gn : List ℚ) (kl : Option (ℚ × ℚ))
    (h : GoodMetrics m pg ch cl en pk gn kl) :
    ∃ m', record_mini m mb = some m'
      ∧ GoodMetrics m' (pg ++ mb.micros.map MicroMetrics.pgLoss)
          (ch ++ mb.micros.map MicroMetrics.clipHigher)
          (cl ++ mb.micros.map MicroMetrics.clipLower)
          (en ++ mb.micros.map MicroMetrics.entropy)
          (pk ++ mb.micros.map MicroMetrics.ppoKl)
          (gn ++ [mb.gradNorm]) (klAfter kl mb.micros) := by
  obtain ⟨m1, e1, g1⟩ := foldlM_record_micro_good mb.micros m pg ch cl en pk gn kl h
  obtain ⟨gpg, gch, gcl, gen, gpk, ggn, gkll, gklc⟩ := g1
  obtain ⟨m2, e2, l2, o2⟩ := appendKey_spec m1 "actor/grad_norm" mb.gradNorm gn ggn
  refine ⟨m2, ?_, ?_, ?_, ?_, ?_, ?_, ?_, ?_, ?_⟩
  · simp only [record_mini, e1, Option.some_bind]
    exact e2
  · rw [o2 _ (by decide)]
    exact gpg
  · rw [o2 _ (by decide)]
    exact gch
  · rw [o2 _ (by decide)]
    exact gcl
  · rw [o2 _ (by decide)]
    exact gen
  · rw [o2 _ (by decide)]
    exact gpk
  · exact l2
  · rw [o2 _ (by decide)]
    exact gkll
  · rw [o2 _ (by decide)]
    exact gklc

theorem foldlM_record_mini_good :
    ∀ (ms : List MiniBatch) (m : Metrics) (pg ch cl en pk gn : List ℚ)
      (kl : Option (ℚ × ℚ)), GoodMetrics m pg ch cl en pk gn kl →
      ∃ m', List.foldlM record_mini m ms = some m'
        ∧ GoodMetrics m'
            (pg ++ ((ms.map MiniBatch.micros).flatten).map MicroMetrics.pgLoss)
            (ch ++ ((ms.map MiniBatch.micros).flatten).map MicroMetrics.clipHigher)
            (cl ++ ((ms.map MiniBatch.micros).flatten).map MicroMetrics.clipLower)
            (en ++ ((ms.map MiniBatch.micros).flatten).map MicroMetrics.entropy)
            (pk ++ ((ms.map MiniBatch.micros).flatten).map MicroMetrics.ppoKl)
            (gn ++ ms.map MiniBatch.gradNorm)
            (klAfter kl ((ms.map MiniBatch.micros).flatten)) := by
  intro ms
  induction ms with
  | nil =>
    intro m pg ch cl en pk gn kl h
    exact ⟨m, rfl, by simpa [klAfter_nil] using h⟩
  | cons mb ms ih =>
    intro m pg ch cl en pk gn kl h
    obtain ⟨m1, e1, g1⟩ := record_mini_good mb m pg ch cl en pk gn kl h
    obtain ⟨m', e', g'⟩ := ih m1 _ _ _ _ _ _ (klAfter kl mb.micros) g1
    refine ⟨m', ?_, ?_⟩
    · simp only [List.foldlM_cons, e1, Option.bind_eq_bind, Option.some_bind]
      exact e'
    · simp only [List.map_cons, List.flatten_cons, List.map_append, klAfter_append]
      simpa [List.append_assoc] using g'

/-! ## Theorems: metric accumulation in update_policy (claim C7) -/

/-- Counterexample to C7 as stated: in a run of one epoch over one
mini-batch with two micro-batches that both report a KL loss (values 3
then 5), the returned dict's `actor/kl_loss` entry is the bare scalar 5 —
the most recent assignment — not the two-entry ordered collection `[3, 5]`
that one-entry-per-reporting-event appending would give. -/
theorem update_policy_kl_metric_not_appended :
    ((update_policy_metrics 1 [mbKl]).bind fun m =>
        List.lookup "actor/kl_loss" m) = some (MetricVal.scalar 5)
    ∧ ((update_policy_metrics 1 [mbKl]).bind fun m =>
        List.lookup "actor/kl_loss" m) ≠ some (MetricVal.series [3, 5]) := by
  constructor <;> decide

/-- Claim C7 amended: across all micro-batches and mini-batches of all
epochs, the loss, both clip fractions, the entropy proxy and the
approximate KL are appended to per-key ordered collections holding one
entry per reporting event in order, and the gradient norm likewise one
entry per mini-batch; the KL-penalty values (`actor/kl_loss`,
`actor/kl_coef`) are instead overwritten in place, so the returned dict
holds them as bare scalars equal to the most recent KL event (absent when
no KL event occurred). -/
theorem update_policy_metrics_accumulation (e : Nat) (mbs : List MiniBatch) :
    ∃ m, update_policy_metrics e mbs = some m
      ∧ GoodMetrics m ((microSeq e mbs).map MicroMetrics.pgLoss)
          ((microSeq e mbs).map MicroMetrics.clipHigher)
          ((microSeq e mbs).map MicroMetrics.clipLower)
          ((microSeq e mbs).map MicroMetrics.entropy)
          ((microSeq e mbs).map MicroMetrics.ppoKl)
          ((miniSeq e mbs).map MiniBatch.gradNorm)
          (klAfter none (microSeq e mbs)) := by
  obtain ⟨m, hm, g⟩ :=
    foldlM_record_mini_good (miniSeq e mbs) [] [] [] [] [] [] [] none
      goodMetrics_empty
  refine ⟨m, ?_, ?_⟩
  · simpa [update_policy_metrics, miniSeq] using hm
  · simpa [microSeq] using g

/-! ## Lemmas: list indexing for the forward-pass equivalence -/

theorem getD_append_left_own {α : Type} :
    ∀ (l l' : List α) (i : Nat) (d : α), i < l.length →
      (l ++ l').getD i d = l.getD i d := by
  intro l
  induction l with
  | nil => intro l' i d h; simp at h
  | cons a t ih =>
    intro l' i d h
    cases i with
    | zero => rfl
    | succ i =>
      simp only [List.length_cons] at h
      simp only [List.cons_append, List.getD_cons_succ]
      exact ih l' i d (Nat.lt_of_succ_lt_succ h)

theorem getD_append_offset {α : Type} :
    ∀ (l l' : List α) (i : Nat) (d : α),
      (l ++ l').getD (l.length + i) d = l'.getD i d := by
  intro l
  induction l with
  | nil => intro l' i d; simp
  | cons a t ih =>
    intro l' i d
    have he : (a :: t).length + i = (t.length + i) + 1 := by
      simp only [List.length_cons]
      omega
    rw [he, List.cons_append, List.getD_cons_succ]
    exact ih l' i d

theorem getD_drop_own {α : Type} :
    ∀ (l : List α) (n i : Nat) (d : α), (l.drop n).getD i d = l.getD (n + i) d := by
  intro l
  induction l with
  | nil => intro n i d; simp
  | cons a t ih =>
    intro n i d
    cases n with
    | zero => simp
    | succ n =>
      have he : n + 1 + i = (n + i) + 1 := by omega
      rw [he, List.drop_succ_cons, List.getD_cons_succ]
      exact ih n i d

theorem getD_map_own {α β : Type} (f : α → β) :
    ∀ (l : List α) (i : Nat) (d : β) (d' : α), i < l.length →
      (l.map f).getD i d = f (l.getD i d') := by
  intro l
  induction l with
  | nil => intro i d d' h; simp at h
  | cons a t ih =>
    intro i d d' h
    cases i with
    | zero => rfl
    | succ i =>
      simp only [List.length_cons] at h
      simp only [List.map_cons, List.getD_cons_succ]
      exact ih i d d' (Nat.lt_of_succ_lt_succ h)

theorem length_rangeList : ∀ n : Nat, (rangeList n).length = n := by
  intro n
  induction n with
  | zero => rfl
  | succ n ih => simp [rangeList, ih]

theorem getD_rangeList : ∀ (n i d : Nat), i < n → (rangeList n).getD i d = i := by
  intro n
  induction n with
  | zero => intro i d h; simp at h
  | succ n ih =>
    intro i d h
    rcases Nat.lt_succ_iff_lt_or_eq.mp h with h' | h'
    · rw [rangeList, getD_append_left_own _ _ _ _ (by rw [length_rangeList]; exact h')]
      exact ih i d h'
    · subst h'
      have h0 := getD_append_offset (rangeList i) [i] 0 d
      rw [length_rangeList] at h0
      simpa [rangeList] using h0

theorem length_packedRowVals (M : PolicyModel) (τ : ℚ) (k : List Cell)
    (labels : List Nat) : (packedRowVals M τ k labels).length = k.length := by
  simp [packedRowVals, length_rangeList]

theorem length_paddedRowVals (M : PolicyModel) (τ : ℚ) (row : List Cell) :
    (paddedRowVals M τ row).length = row.length := by
  simp [paddedRowVals, length_rangeList]

theorem getD_packedRowVals (M : PolicyModel) (τ : ℚ) (k : List Cell)
    (labels : List Nat) (j : Nat) (h : j < k.length) :
    (packedRowVals M τ k labels).getD j 0
      = M τ ((k.take (j + 1)).map cellTP) (labels.getD j 0) := by
  unfold packedRowVals
  rw [getD_map_own _ _ _ _ 0 (by rw [length_rangeList]; exact h),
    getD_rangeList _ _ _ h]

theorem getD_paddedRowVals (M : PolicyModel) (τ : ℚ) (row : List Cell)
    (s : Nat) (h : s < row.length) :
    (paddedRowVals M τ row).getD s 0
      = M τ (((row.take (s + 1)).filter Cell.attn).map cellTP)
          ((rollNeg1 (row.map Cell.tok)).getD s 0) := by
  unfold paddedRowVals
  rw [getD_map_own _ _ _ _ 0 (by rw [length_rangeList]; exact h),
    getD_rangeList _ _ _ h]

theorem rollNeg1_eq {α : Type} (l : List α) :
    rollNeg1 l = l.drop 1 ++ l.take 1 := by
  cases l <;> simp [rollNeg1]

theorem getD_rollNeg1 {α : Type} (l : List α) (s : Nat) (d : α)
    (h : s + 1 < l.length) : (rollNeg1 l).getD s d = l.getD (s + 1) d := by
  rw [rollNeg1_eq,
    getD_append_left_own _ _ _ _ (by simp only [List.length_drop]; omega),
    getD_drop_own, Nat.add_comm 1 s]

theorem countT_map_filter {α : Type} (f : α → Bool) :
    ∀ l : List α, countT (l.map f) = (l.filter f).length := by
  intro l
  induction l with
  | nil => rfl
  | cons a t ih =>
    cases hfa : f a <;>
      simp [List.filter_cons, hfa, countT_cons_true, countT_cons_false, ih]

theorem take_succ_getD {α : Type} :
    ∀ (l : List α) (s : Nat) (d : α), s < l.length →
      l.take (s + 1) = l.take s ++ [l.getD s d] := by
  intro l
  induction l with
  | nil => intro s d h; simp at h
  | cons a t ih =>
    intro s d h
    cases s with
    | zero => simp
    | succ s =>
      simp only [List.length_cons] at h
      simp only [List.take_succ_cons, List.getD_cons_succ, List.cons_append,
        List.cons.injEq, true_and]
      exact ih s d (Nat.lt_of_succ_lt_succ h)

theorem keptRow_split (row : List Cell) (s : Nat) :
    keptRow row = keptRow (row.take s) ++ keptRow (row.drop s) := by
  unfold keptRow
  conv_lhs => rw [← List.take_append_drop s row]
  rw [List.filter_append]

theorem keptRow_take_succ (row : List Cell) (s : Nat) (h : s < row.length)
    (ha : (row.getD s dCell).attn = true) :
    keptRow (row.take (s + 1)) = keptRow (row.take s) ++ [row.getD s dCell] := by
  rw [take_succ_getD row s dCell h]
  unfold keptRow
  rw [List.filter_append, List.filter_cons, if_pos ha]
  rfl

theorem getD_eq_get_own {α : Type} :
    ∀ (l : List α) (i : Nat) (d : α) (h : i < l.length), l.getD i d = l.get ⟨i, h⟩ := by
  intro l
  induction l with
  | nil => intro i d h; simp at h
  | cons a t ih =>
    intro i d h
    cases i with
    | zero => rfl
    | succ i => exact ih i d (Nat.lt_of_succ_lt_succ h)

theorem keptRow_drop_head (row : List Cell) (s : Nat) (h : s < row.length)
    (ha : (row.getD s dCell).attn = true) :
    keptRow (row.drop s) = row.getD s dCell :: keptRow (row.drop (s + 1)) := by
  have hd : row.drop s = row.getD s dCell :: row.drop (s + 1) := by
    rw [getD_eq_get_own row s dCell h]
    exact List.drop_eq_getElem_cons h
  rw [hd]
  unfold keptRow
  rw [List.filter_cons, if_pos ha]

/-- At a response-eligible position — attended, with an attended successor
column in the same row — the packed path (global flat label roll, segment
packing, scatter back) and the padded path (per-row label roll) produce the
same log-probability: both score the same-row attended-prefix context
against the row's next token. -/
theorem packed_padded_pos_eq (M : PolicyModel) (τ : ℚ) (row : List Cell)
    (labels : List Nat) (s : Nat)
    (hs1 : s + 1 < row.length)
    (ha : (row.getD s dCell).attn = true)
    (ha1 : (row.getD (s + 1) dCell).attn = true)
    (hlab : ∀ j, j + 1 < (keptRow row).length →
        labels.getD j 0 = ((keptRow row).getD (j + 1) dCell).tok) :
    (scatterRow (row.map Cell.attn)
        (packedRowVals M τ (keptRow row) labels)).1.getD s 0
      = (paddedRowVals M τ row).getD s 0 := by
  have hs : s < row.length := Nat.lt_of_succ_lt hs1
  have hsplit1 : keptRow row = keptRow (row.take (s + 1)) ++ keptRow (row.drop (s + 1)) :=
    keptRow_split row (s + 1)
  have htake : keptRow (row.take (s + 1)) = keptRow (row.take s) ++ [row.getD s dCell] :=
    keptRow_take_succ row s hs ha
  have hdrop : keptRow (row.drop (s + 1))
      = row.getD (s + 1) dCell :: keptRow (row.drop (s + 2)) :=
    keptRow_drop_head row (s + 1) hs1 ha1
  have hlen1 : (keptRow (row.take (s + 1))).length
      = (keptRow (row.take s)).length + 1 := by
    rw [htake]
    simp
  have hKge : (keptRow (row.take s)).length + 1 < (keptRow row).length := by
    rw [hsplit1, hdrop, List.length_append, hlen1, List.length_cons]
    omega
  have hmattn : (row.map Cell.attn).getD s false = true := by
    rw [getD_map_own Cell.attn row s false dCell hs]
    exact ha
  rw [scatterRow_getD_true _ _ _ hmattn]
  have hcount : countT ((row.map Cell.attn).take s) = (keptRow (row.take s)).length := by
    rw [← List.map_take, countT_map_filter]
    rfl
  rw [hcount]
  rw [getD_packedRowVals M τ _ labels _ (Nat.lt_of_succ_lt hKge)]
  have hctx : (keptRow row).take ((keptRow (row.take s)).length + 1)
      = keptRow (row.take (s + 1)) := by
    rw [hsplit1, ← hlen1, List.take_left]
  have hlabel : labels.getD (keptRow (row.take s)).length 0
      = (row.getD (s + 1) dCell).tok := by
    rw [hlab _ hKge, hsplit1]
    have h0 := getD_append_offset (keptRow (row.take (s + 1)))
      (keptRow (row.drop (s + 1))) 0 dCell
    rw [hlen1] at h0
    rw [show (keptRow (row.take s)).length + 1 + 0
        = (keptRow (row.take s)).length + 1 by omega] at h0
    rw [h0, hdrop, List.getD_cons_zero]
  rw [getD_paddedRowVals M τ row s hs]
  rw [hctx, hlabel]
  have hrl : (rollNeg1 (row.map Cell.tok)).getD s 0 = (row.getD (s + 1) dCell).tok := by
    rw [getD_rollNeg1 _ _ _ (by simpa using hs1),
      getD_map_own Cell.tok row (s + 1) 0 dCell hs1]
  rw [hrl]
  rfl

theorem maskSelectRow_congr :
    ∀ (ms : List Bool) (xs ys : List ℤ),
      xs.length = ms.length → ys.length = ms.length →
      (∀ s, s < ms.length → ms.getD s false = true → xs.getD s 0 = ys.getD s 0) →
      maskSelectRow ms xs = maskSelectRow ms ys := by
  intro ms
  induction ms with
  | nil =>
    intro xs ys hx hy _
    have hx0 : xs = [] := List.length_eq_zero.mp hx
    have hy0 : ys = [] := List.length_eq_zero.mp hy
    rw [hx0, hy0]
  | cons b ms ih =>
    intro xs ys hx hy h
    cases xs with
    | nil => simp at hx
    | cons x xs =>
      cases ys with
      | nil => simp at hy
      | cons y ys =>
        simp only [List.length_cons, Nat.add_right_cancel_iff] at hx hy
        have hrec : maskSelectRow ms xs = maskSelectRow ms ys := by
          apply ih xs ys hx hy
          intro s hs hb
          have := h (s + 1) (by simpa using Nat.succ_lt_succ hs)
            (by simpa using hb)
          simpa using this
        simp only [maskSelectRow, List.zip_cons_cons, List.filterMap_cons] at hrec ⊢
        cases b with
        | false => simpa using hrec
        | true =>
          have hx0 := h 0 (by simp) (by simp)
          simp only [List.getD_cons_zero] at hx0
          simpa [hx0] using hrec

/-- Per-row selected-value equality: when every response position of the
row is attended and followed by an attended column, and the label stream
handed to the row's packed segment agrees with the segment's own next
tokens, the response-selected log-probabilities of the packed and padded
paths coincide. -/
theorem row_sel_eq (M : PolicyModel) (τ : ℚ) (row : List Cell)
    (labels : List Nat)
    (hlab : ∀ j, j + 1 < (keptRow row).length →
        labels.getD j 0 = ((keptRow row).getD (j + 1) dCell).tok)
    (hgood : ∀ s, s < row.length → (row.getD s dCell).resp = true →
        (row.getD s dCell).attn = true ∧ s + 1 < row.length
          ∧ (row.getD (s + 1) dCell).attn = true) :
    maskSelectRow (row.map Cell.resp)
        (scatterRow (row.map Cell.attn)
          (packedRowVals M τ (keptRow row) labels)).1
      = maskSelectRow (row.map Cell.resp) (paddedRowVals M τ row) := by
  apply maskSelectRow_congr
  · rw [scatterRow_fst_length]
    simp
  · rw [length_paddedRowVals]
    simp
  · intro s hs hresp
    rw [List.length_map] at hs
    have hre : (row.getD s dCell).resp = true := by
      rw [getD_map_own Cell.resp row s false dCell hs] at hresp
      exact hresp
    obtain ⟨h1, h2, h3⟩ := hgood s hs hre
    exact packed_padded_pos_eq M τ row labels s h2 h1 h3 hlab

/-- Grid-level selected-value equality, threading the globally rolled flat
label stream through the rows: the invariant is that the remaining labels
are the remaining rows' flat tokens shifted left by one, followed by
whatever wrapped around. -/
theorem grid_sel_eq (M : PolicyModel) (τ : ℚ) :
    ∀ (rows : List (List Cell)) (labels : List Nat),
      (∀ row ∈ rows, ∀ s, s < row.length → (row.getD s dCell).resp = true →
          (row.getD s dCell).attn = true ∧ s + 1 < row.length
            ∧ (row.getD (s + 1) dCell).attn = true) →
      (∃ w, labels = (flatToks rows).drop 1 ++ w) →
      maskSelect (respGrid rows)
          (scatterRows (attnGrid rows) (packedValsAux M τ rows labels))
        = maskSelect (respGrid rows) (rows.map (paddedRowVals M τ)) := by
  intro rows
  induction rows with
  | nil =>
    intro labels _ _
    rfl
  | cons row rows ih =>
    intro labels hgood hinv
    obtain ⟨w, hw⟩ := hinv
    have hflat : flatToks (row :: rows)
        = (keptRow row).map Cell.tok ++ flatToks rows := by
      simp [flatToks, keptRow]
    have hlenp : (packedRowVals M τ (keptRow row) labels).length
        = countT (row.map Cell.attn) := by
      rw [length_packedRowVals, countT_map_filter]
      rfl
    simp only [respGrid, attnGrid, List.map_cons, packedValsAux, scatterRows]
    rw [scatterRow_append _ _ _ hlenp]
    simp only [maskSelect, List.zip_cons_cons, List.map_cons, List.flatten_cons]
    have hhead :
        maskSelectRow (row.map Cell.resp)
            (scatterRow (row.map Cell.attn)
              (packedRowVals M τ (keptRow row) labels)).1
          = maskSelectRow (row.map Cell.resp) (paddedRowVals M τ row) := by
      apply row_sel_eq M τ row labels
      · intro j hj
        rw [hw, hflat]
        have hxlen : ((keptRow row).map Cell.tok).length = (keptRow row).length := by
          simp
        rw [List.drop_append_eq_append_drop,
          show 1 - ((keptRow row).map Cell.tok).length = 0 by omega,
          List.drop_zero, List.append_assoc,
          getD_append_left_own _ _ _ _
            (by simp only [List.length_drop, hxlen]; omega),
          getD_drop_own, Nat.add_comm 1 j]
        exact getD_map_own Cell.tok (keptRow row) (j + 1) 0 dCell (by omega)
      · intro s hs hresp
        exact hgood row (by simp) s hs hresp
    rw [hhead]
    have htail :
        maskSelect (respGrid rows)
            (scatterRows (attnGrid rows)
              (packedValsAux M τ rows (labels.drop (keptRow row).length)))
          = maskSelect (respGrid rows) (rows.map (paddedRowVals M τ)) := by
      apply ih (labels.drop (keptRow row).length)
        (fun r hr => hgood r (by simp [hr]))
      refine ⟨w.drop ((keptRow row).length
        - (((keptRow row).map Cell.tok ++ flatToks rows).drop 1).length), ?_⟩
      rw [hw, hflat, List.drop_append_eq_append_drop, List.drop_drop,
        List.drop_append_eq_append_drop]
      have h1 : ((keptRow row).map Cell.tok).drop (1 + (keptRow row).length) = [] := by
        apply List.drop_eq_nil_of_le
        simp only [List.length_map]
        omega
      rw [h1,
        show 1 + (keptRow row).length - ((keptRow row).map Cell.tok).length = 1 by
          simp only [List.length_map]
          omega,
        List.nil_append]
    simp only [maskSelect, respGrid, attnGrid] at htail
    rw [htail]

theorem get_compact_congr (rm : Grid Bool) (lp1 lp2 : Grid ℤ) (cm : Grid Bool)
    (h1 : rm.map List.length = lp1.map List.length)
    (h2 : rm.map List.length = lp2.map List.length)
    (hsel : maskSelect rm lp1 = maskSelect rm lp2) :
    get_compact_response_log_probs rm lp1 cm
      = get_compact_response_log_probs rm lp2 cm := by
  unfold get_compact_response_log_probs
  rw [if_pos h1, if_pos h2, hsel]

/-! ## Theorems: padded vs padding-free forward pass (claim C1) -/

/-- Counterexample to C1 as stated: a micro-batch whose response mask
selects the last non-padding token of a sample (sample 0 is `[10, PAD]`
with its sole token marked as response; sample 1 is `[20, 30]`).  The
padded path's per-row label roll scores the padding token (id 0) there,
while the packed path's global flat roll scores the next sample's first
token (id 20), so the two compact outputs differ even though token ids,
attention mask, position ids, temperature and model are identical. -/
theorem forward_micro_batch_boundary_mismatch :
    forward_micro_batch_packed modelScore 1 rowsBoundary cmaskOne
      ≠ forward_micro_batch_padded modelScore 1 rowsBoundary cmaskOne := by
  decide

/-- Claim C1 amended: the padded and padding-free paths of
`_forward_micro_batch` return the same compact log-probability tensor
provided every position selected by `response_mask` is attended and is
followed, within its own row, by another attended position — i.e. the
selected position is not its sample's last non-padding token.  At such
boundary positions the two layouts roll different labels in (the padded
roll stays inside the row, the packed roll crosses into the next sample)
and the outputs can differ, as the counterexample shows. -/
theorem forward_micro_batch_padding_free_eq (M : PolicyModel) (τ : ℚ)
    (rows : List (List Cell)) (cmask : Grid Bool)
    (hgood : ∀ row ∈ rows, ∀ s, s < row.length →
        (row.getD s dCell).resp = true →
        (row.getD s dCell).attn = true ∧ s + 1 < row.length
          ∧ (row.getD (s + 1) dCell).attn = true) :
    forward_micro_batch_packed M τ rows cmask
      = forward_micro_batch_padded M τ rows cmask := by
  have hsel : maskSelect (respGrid rows) (packed_full_log_probs M τ rows)
      = maskSelect (respGrid rows) (padded_full_log_probs M τ rows) := by
    unfold packed_full_log_probs packedVals padded_full_log_probs
    apply grid_sel_eq M τ rows (rolledLabels rows) hgood
    refine ⟨(flatToks rows).take 1, ?_⟩
    unfold rolledLabels
    rw [rollNeg1_eq]
  have hs1 : (respGrid rows).map List.length
      = (packed_full_log_probs M τ rows).map List.length := by
    unfold packed_full_log_probs
    rw [scatterRows_shape]
    simp [respGrid, attnGrid, List.map_map, Function.comp]
  have hs2 : (respGrid rows).map List.length
      = (padded_full_log_probs M τ rows).map List.length := by
    unfold padded_full_log_probs
    simp [respGrid, List.map_map, Function.comp, length_paddedRowVals]
  unfold forward_micro_batch_packed forward_micro_batch_padded
  exact get_compact_congr _ _ _ cmask hs1 hs2 hsel

/-- Witness for the amended C1 at a concrete micro-batch whose response
position is followed by an attended token of the same sample. -/
theorem forward_micro_batch_padding_free_eq_witness :
    (∀ row ∈ rowsSafe, ∀ s, s < row.length →
        (row.getD s dCell).resp = true →
        (row.getD s dCell).attn = true ∧ s + 1 < row.length
          ∧ (row.getD (s + 1) dCell).attn = true)
    ∧ forward_micro_batch_packed modelScore 1 rowsSafe cmaskOne
        = forward_micro_batch_padded modelScore 1 rowsSafe cmaskOne :=
  ⟨by decide,
   forward_micro_batch_padding_free_eq modelScore 1 rowsSafe cmaskOne (by decide)⟩
